import Mathlib

/-!
Verification of the dhmz-widget weather application (src/app.js and the
pljusak variant src/unnamed/part_003) against its natural-language
specification.  JavaScript floating-point numbers are idealised as real
numbers; the JS distinction between finite numbers and the non-finite
values (NaN, Infinity, -Infinity) is kept, because the code tests it with
isFinite/isNaN.  Feed values (results of JSON.parse of the podaci array)
are strings or null per the documented data structure; out-of-range array
access yields undefined.
-/

/-- Model of a JavaScript number as produced by parseFloat: either a finite
real value or one of the non-finite values NaN, Infinity, -Infinity.  The
code only ever branches on isFinite / isNaN, never on the sign of an
infinity versus NaN, so the three non-finite values are kept as distinct
constructors for faithfulness of equality tests that do not occur. -/
inductive JSNum where
  | fin (x : ℝ)
  | nan
  | inf
  | ninf

/-- Value of a JS number when known finite (junk 0 on the non-finite
constructors; every use in the embedding is guarded by jsIsFinite, exactly
as the source guards with isFinite before using the coordinates). -/
def JSNum.val : JSNum → ℝ
  | .fin x => x
  | _ => 0

/-- Model of the JS global isFinite applied to a number. -/
def jsIsFinite : JSNum → Bool
  | .fin _ => true
  | _ => false

/-- Model of the JS isNaN applied to a number. -/
def jsIsNaN : JSNum → Bool
  | .nan => true
  | _ => false

/-- Scalar values occurring in the decoded podaci feed rows: strings and
null (the feed quotes all numeric fields as strings, per the data-structure
comment at the top of src/unnamed/part_003), plus undefined for
out-of-range array access. -/
inductive JSVal where
  | str (s : String)
  | null
  | undefined
deriving DecidableEq

/-- JS truthiness of a feed value (used for the `!name` and `entry[17] ||
null` tests): a string is truthy iff nonempty, null and undefined are
falsy. -/
def jsTruthy : JSVal → Bool
  | .str s => s ≠ ""
  | .null => false
  | .undefined => false

/-- Array indexing entry[i]: out-of-range access yields undefined. -/
def getIdx (entry : List JSVal) (i : ℕ) : JSVal :=
  entry.getD i .undefined

/-- parseFloat applied to a feed value: null and undefined coerce to the
strings "null"/"undefined" and parse to NaN; strings are parsed by the
abstract string-to-float function pf, which is a parameter of the
development (parseFloat is a JS builtin, not repository code). -/
def pfVal (pf : String → JSNum) : JSVal → JSNum
  | .str s => pf s
  | _ => .nan

/-- Model of the JS Math.atan2(y, x) on real arguments. -/
noncomputable def atan2 (y x : ℝ) : ℝ :=
  if 0 < x then Real.arctan (y / x)
  else if x < 0 ∧ 0 ≤ y then Real.arctan (y / x) + Real.pi
  else if x < 0 ∧ y < 0 then Real.arctan (y / x) - Real.pi
  else if x = 0 ∧ 0 < y then Real.pi / 2
  else if x = 0 ∧ y < 0 then -(Real.pi / 2)
  else 0

/-- Embedding of haversineDistance (src/app.js lines 999-1007, identical in
src/unnamed/part_003 lines 404-412): great-circle distance in km between
two points given in decimal degrees, Earth radius 6371 km. -/
noncomputable def haversineDistance (lat1 lon1 lat2 lon2 : ℝ) : ℝ :=
  let R : ℝ := 6371
  let toRad : ℝ → ℝ := fun deg => deg * Real.pi / 180
  let dLat := toRad (lat2 - lat1)
  let dLon := toRad (lon2 - lon1)
  let a := Real.sin (dLat / 2) ^ 2 +
    Real.cos (toRad lat1) * Real.cos (toRad lat2) * Real.sin (dLon / 2) ^ 2
  R * 2 * atan2 (Real.sqrt a) (Real.sqrt (1 - a))

/-- StationData record (src/app.js lines 828-841, src/unnamed/part_003
lines 186-197).  measurementTime is modelled in integer milliseconds on a
linear timeline (the JS Date is a millisecond timestamp). -/
structure Station where
  name : String
  lat : JSNum
  lon : JSNum
  temperature : JSNum
  humidity : Option JSNum
  pressure : Option JSNum
  pressureTrend : Option JSNum
  windDirection : JSVal
  windSpeed : Option JSNum
  condition : Option String
  measurementTime : Option ℤ

/-- A station has finite coordinates (the isFinite(station.lat) &&
isFinite(station.lon) guard of the scans). -/
def isFiniteStation (st : Station) : Bool :=
  jsIsFinite st.lat && jsIsFinite st.lon

/-- Haversine distance from a query point to a station's coordinates. -/
noncomputable def stationDist (lat lon : ℝ) (st : Station) : ℝ :=
  haversineDistance lat lon st.lat.val st.lon.val

/-- Loop of findNearestStation (src/app.js lines 1016-1031): iterate the
snapshot entries in order, skipping stations without finite coordinates,
keeping the strictly smaller distance.  The accumulator none plays the role
of nearest = null with minDist = Infinity: any real distance is below
Infinity, so the first finite station always replaces none. -/
noncomputable def nearestLoop (lat lon : ℝ) :
    List (String × Station) → Option (String × ℝ) → Option (String × ℝ)
  | [], acc => acc
  | p :: rest, acc =>
    if isFiniteStation p.2 then
      match acc with
      | none => nearestLoop lat lon rest (some (p.1, stationDist lat lon p.2))
      | some (m, dm) =>
        if stationDist lat lon p.2 < dm then
          nearestLoop lat lon rest (some (p.1, stationDist lat lon p.2))
        else
          nearestLoop lat lon rest (some (m, dm))
    else
      nearestLoop lat lon rest acc

/-- Embedding of findNearestStation (src/app.js lines 1016-1031): returns
the name and distance of the nearest finite-coordinate station, or none.
The snapshot is the list of Object.entries of the stations object in
insertion order. -/
noncomputable def findNearestStation (stations : List (String × Station))
    (lat lon : ℝ) : Option (String × ℝ) :=
  nearestLoop lat lon stations none

/-- StationMap configuration constants (src/app.js lines 1543-1560). -/
def latCorrection : ℝ := 0.85

/-- Original SVG width before latitude correction. -/
def originalWidth : ℝ := 610

/-- Corrected viewBox width: originalWidth * latCorrection. -/
noncomputable def viewBoxWidth : ℝ := originalWidth * latCorrection

/-- The viewBox height. -/
def viewBoxHeight : ℝ := 476

/-- Croatia bounding box (with padding). -/
def boundsMinLon : ℝ := 13.2

/-- Eastern edge of the bounding box. -/
def boundsMaxLon : ℝ := 19.6

/-- Southern edge of the bounding box. -/
def boundsMinLat : ℝ := 42.2

/-- Northern edge of the bounding box. -/
def boundsMaxLat : ℝ := 46.7

/-- Snap distance for station selection (km) at zoom level 1. -/
def snapDistance : ℝ := 20

/-- Minimum zoom scale. -/
def minZoom : ℝ := 1

/-- Maximum zoom scale. -/
def maxZoom : ℝ := 6

/-- Viewport zoom/pan state (src/app.js line 1564): scale and pan offset in
base (unzoomed) coordinates. -/
structure Zoom where
  scale : ℝ
  x : ℝ
  y : ℝ

/-- Embedding of StationMap.latLonToBase (src/app.js lines 1588-1594):
pair (x, y) of base SVG coordinates without zoom. -/
noncomputable def latLonToBase (lat lon : ℝ) : ℝ × ℝ :=
  ((lon - boundsMinLon) / (boundsMaxLon - boundsMinLon) * viewBoxWidth,
   (boundsMaxLat - lat) / (boundsMaxLat - boundsMinLat) * viewBoxHeight)

/-- Embedding of StationMap.latLonToSvg (src/app.js lines 1602-1608):
lat/lon to SVG coordinates with zoom applied. -/
noncomputable def latLonToSvg (z : Zoom) (lat lon : ℝ) : ℝ × ℝ :=
  (((latLonToBase lat lon).1 - z.x) * z.scale,
   ((latLonToBase lat lon).2 - z.y) * z.scale)

/-- Embedding of StationMap.svgToLatLon (src/app.js lines 1616-1624): SVG
coordinates (in zoomed space) back to a pair (lat, lon). -/
noncomputable def svgToLatLon (z : Zoom) (x y : ℝ) : ℝ × ℝ :=
  ((boundsMaxLat - (y / z.scale + z.y) / viewBoxHeight * (boundsMaxLat - boundsMinLat),
    (x / z.scale + z.x) / viewBoxWidth * (boundsMaxLon - boundsMinLon) + boundsMinLon))

/-- Embedding of StationMap.clampPan (src/app.js lines 1644-1649): clamp
pan so the visible window stays within the viewBox. -/
noncomputable def clampPan (z : Zoom) : Zoom :=
  { scale := z.scale,
    x := max 0 (min z.x (viewBoxWidth - viewBoxWidth / z.scale)),
    y := max 0 (min z.y (viewBoxHeight - viewBoxHeight / z.scale)) }

/-- Embedding of StationMap.zoomTo (src/app.js lines 1662-1678): clamp the
target scale to [minZoom, maxZoom]; if it equals the current scale, return
unchanged; otherwise re-derive the pan so the point (centerX, centerY)
stays fixed, and re-clamp the pan.  (updatePositions is rendering only and
does not touch the viewport state.) -/
noncomputable def zoomTo (z : Zoom) (newScale centerX centerY : ℝ) : Zoom :=
  let ns := max minZoom (min maxZoom newScale)
  if ns = z.scale then z
  else
    clampPan
      { scale := ns,
        x := centerX / z.scale + z.x - centerX / ns,
        y := centerY / z.scale + z.y - centerY / ns }

/-- Loop of StationMap.findNearestWithinSnap (src/app.js lines 1798-1805):
same scan as findNearestStation, but minDist starts at the effective snap
radius, so only stations strictly closer than the radius are returned. -/
noncomputable def snapLoop (lat lon : ℝ) :
    List (String × Station) → Option String → ℝ → Option String
  | [], nearest, _ => nearest
  | p :: rest, nearest, minDist =>
    if isFiniteStation p.2 then
      if stationDist lat lon p.2 < minDist then
        snapLoop lat lon rest (some p.1) (stationDist lat lon p.2)
      else
        snapLoop lat lon rest nearest minDist
    else
      snapLoop lat lon rest nearest minDist

/-- Embedding of StationMap.findNearestWithinSnap (src/app.js lines
1792-1807): nearest station within snapDistance / scale, where scale is the
current zoom scale; none when no snapshot is cached. -/
noncomputable def findNearestWithinSnap (cached : Option (List (String × Station)))
    (scale lat lon : ℝ) : Option String :=
  match cached with
  | none => none
  | some stations => snapLoop lat lon stations none (snapDistance / scale)

/-- Sentinel selection value meaning "resolve via geolocation" (src/app.js
line 51). -/
def DETECTED_LOCATION : String := "Najbliže"

/-- Match of the regex ^(\d{1,2}):(\d{2})(?::\d{2})?$ used by
parseMeasurementTime (src/unnamed/part_003 line 287): returns the parseInt
values of the hour and minute groups.  The four shapes H:MM, HH:MM,
H:MM:SS, HH:MM:SS are matched explicitly; the anchors make the match
unambiguous. -/
def matchTime (s : String) : Option (ℕ × ℕ) :=
  let dv : Char → ℕ := fun c => c.toNat - '0'.toNat
  match s.data with
  | [a, ':', b, c] =>
    if a.isDigit && b.isDigit && c.isDigit then
      some (dv a, 10 * dv b + dv c)
    else none
  | [a1, a2, ':', b, c] =>
    if a1.isDigit && a2.isDigit && b.isDigit && c.isDigit then
      some (10 * dv a1 + dv a2, 10 * dv b + dv c)
    else none
  | [a, ':', b, c, ':', d, e] =>
    if a.isDigit && b.isDigit && c.isDigit && d.isDigit && e.isDigit then
      some (dv a, 10 * dv b + dv c)
    else none
  | [a1, a2, ':', b, c, ':', d, e] =>
    if a1.isDigit && a2.isDigit && b.isDigit && c.isDigit && d.isDigit && e.isDigit
    then some (10 * dv a1 + dv a2, 10 * dv b + dv c)
    else none
  | _ => none

/-- Number of milliseconds in one day. -/
def dayMs : ℤ := 86400000

/-- Embedding of parseMeasurementTime (src/unnamed/part_003 lines 285-302).
Time is modelled linearly in integer milliseconds: now is the current
timestamp, and new Date(year, month, date, hour, minute) is the start of
the day containing now plus the hour/minute offset (the JS Date constructor
normalises hour and minute overflow by rolling into following days, which
the linear sum models exactly; setDate(getDate() - 1) subtracts one day).
A non-string input (null/undefined feed value) returns null, as does the
empty string (falsy) and any string not matching the regex. -/
def parseMeasurementTime (now : ℤ) (timeStr : JSVal) : Option ℤ :=
  match timeStr with
  | .str s =>
    if s = "" then none
    else
      match matchTime s with
      | none => none
      | some (hour, minute) =>
        let dayStart := dayMs * (Int.ediv now dayMs)
        let t := dayStart + ((hour : ℤ) * 60 + (minute : ℤ)) * 60000
        some (if now < t then t - dayMs else t)
  | _ => none

/-- Embedding of parseNumberOrNull (src/unnamed/part_003 lines 371-375):
null, undefined, "-" and "" give null; otherwise parseFloat, with NaN
giving null. -/
def parseNumberOrNull (pf : String → JSNum) (value : JSVal) : Option JSNum :=
  if value = .null ∨ value = .undefined ∨ value = .str "-" ∨ value = .str "" then none
  else
    match pfVal pf value with
    | .nan => none
    | x => some x

/-- Body of the extractAllStations loop (src/unnamed/part_003 lines
331-361) for a single podaci row: the chain of continue-filters (missing
name, missing/dash/empty/unparseable temperature, non-finite coordinates),
then the built StationData keyed by name.  Column indices follow the PODACI
table (lines 307-320). -/
def extractRow (pf : String → JSNum) (now : ℤ) (entry : List JSVal) :
    Option (String × Station) :=
  match getIdx entry 1 with
  | .str nm =>
    if nm = "" then none
    else
      let tempStr := getIdx entry 12
      if tempStr = .null ∨ tempStr = .undefined ∨ tempStr = .str "-" ∨ tempStr = .str ""
      then none
      else
        let temperature := pfVal pf tempStr
        if jsIsNaN temperature then none
        else
          let lat := pfVal pf (getIdx entry 2)
          let lon := pfVal pf (getIdx entry 3)
          if !(jsIsFinite lat && jsIsFinite lon) then none
          else
            some (nm,
              { name := nm, lat := lat, lon := lon, temperature := temperature,
                humidity := parseNumberOrNull pf (getIdx entry 16),
                pressure := parseNumberOrNull pf (getIdx entry 14),
                pressureTrend := parseNumberOrNull pf (getIdx entry 15),
                windDirection :=
                  if jsTruthy (getIdx entry 17) then getIdx entry 17 else .null,
                windSpeed := parseNumberOrNull pf (getIdx entry 18),
                condition := none,
                measurementTime := parseMeasurementTime now (getIdx entry 10) })
  | _ => none

/-- Assignment result[name] = station on a JS object modelled as an
association list in insertion order: an existing key keeps its position and
is overwritten, a new key is appended. -/
def objInsert (l : List (String × Station)) (k : String) (v : Station) :
    List (String × Station) :=
  if l.any (fun p => p.1 = k) then
    l.map (fun p => if p.1 = k then (k, v) else p)
  else l ++ [(k, v)]

/-- Embedding of extractAllStations (src/unnamed/part_003 lines 327-364):
fold the podaci rows, inserting each surviving row into the result object.
-/
def extractAllStations (pf : String → JSNum) (now : ℤ)
    (podaci : List (List JSVal)) : List (String × Station) :=
  podaci.foldl
    (fun acc entry =>
      match extractRow pf now entry with
      | some (n, st) => objInsert acc n st
      | none => acc)
    []

/-- Modelled from the spec: generateCondition, the condition-synthesis rule
table of the array-literal feed variant (spec section 4.2.1), is not
present in src/ — the pljusak variant included as src/unnamed/part_003
stores condition null (line 358).  The cascade is transcribed from the
spec: a strict fog rule (humidity at least 97 percent, dewpoint spread at
most 1 degree, calm wind, temperature between -3 and 15 degrees) is checked
before all temperature bands; then descending bands at 36, 30, 25, 20, 15,
10, 5, 0, -5, -10 degrees and a final cold band, each refined first by a
humidity-derived feel descriptor, then by a wind-derived descriptor, then
the band's plain label.  The spec documents phrase identities only
abstractly, so English phrase tokens are used; the oppressive-humidity
threshold is the least specific value consistent with the spec's
documented test point (humidity 80 at 38 degrees selects the oppressive
phrase).  Arguments are rationals since the cascade is pure threshold
comparison. -/
def generateCondition (temp humidity windSpeed dewpoint : ℚ) : String :=
  if humidity ≥ 97 ∧ temp - dewpoint ≤ 1 ∧ windSpeed ≤ 1 ∧ -3 ≤ temp ∧ temp ≤ 15
  then "fog"
  else if temp ≥ 36 then
    if humidity ≥ 70 then "oppressive heat"
    else if windSpeed ≥ 8 then "hot and windy"
    else "extreme heat"
  else if temp ≥ 30 then
    if humidity ≥ 70 then "muggy heat"
    else if windSpeed ≥ 8 then "hot with wind"
    else "hot"
  else if temp ≥ 25 then
    if humidity ≥ 75 then "muggy"
    else if windSpeed ≥ 8 then "warm and windy"
    else "very warm"
  else if temp ≥ 20 then
    if humidity ≥ 85 then "warm and damp"
    else if humidity ≤ 30 then "warm and dry"
    else if windSpeed ≥ 8 then "warm with breeze"
    else "warm"
  else if temp ≥ 15 then
    if humidity ≥ 90 then "mild and damp"
    else if windSpeed ≥ 8 then "mild and breezy"
    else "mild"
  else if temp ≥ 10 then
    if humidity ≥ 90 then "cool and damp"
    else if windSpeed ≥ 8 then "cool and windy"
    else "cool"
  else if temp ≥ 5 then
    if windSpeed ≥ 8 then "chilly and windy"
    else "chilly"
  else if temp ≥ 0 then
    if windSpeed ≥ 8 then "cold and windy"
    else "cold"
  else if temp ≥ -5 then
    if windSpeed ≥ 5 then "freezing wind"
    else "freezing"
  else if temp ≥ -10 then "very cold"
  else "severe cold"

/-- Geolocation status (src/app.js line 749). -/
inductive GeoStatus where
  | unknown
  | granted
  | denied
  | unavailable
deriving DecidableEq

/-- Geolocation gateway state as consumed by the selection resolver:
status and the sticky cached coordinates. -/
structure GeoState where
  status : GeoStatus
  coords : Option (ℝ × ℝ)

/-- Embedding of getStationForLocation (src/app.js lines 978-989): for the
sentinel, resolve the nearest station from the cached coordinates (null
without coordinates); otherwise an exact name lookup.  The snapshot lookup
allStations[name] is association-list lookup (keys are unique in a JS
object). -/
noncomputable def getStationForLocation (geo : GeoState)
    (allStations : List (String × Station)) (location : String) :
    Option (Station × Option ℝ) :=
  if location = DETECTED_LOCATION then
    match geo.coords with
    | some c =>
      match findNearestStation allStations c.1 c.2 with
      | some (n, d) =>
        match List.lookup n allStations with
        | some st => some (st, some d)
        | none => none
      | none => none
    | none => none
  else
    match List.lookup location allStations with
    | some st => some (st, none)
    | none => none

/-- What one call of renderSelectedStation paints (the render sink of the
resolver): nothing (no snapshot, or silent return from the fallback path),
the no-data message, one of the two geolocation error messages, the
waiting-for-location status, or a station with its optional distance. -/
inductive RenderOutcome where
  | noop
  | noData
  | errDenied
  | errUnavailable
  | pendingSearch
  | silent
  | display (st : Station) (distance : Option ℝ)

/-- Embedding of getSelectedLocation (src/app.js lines 1039-1041):
localStorage.getItem(LOCATION_KEY) || DETECTED_LOCATION, so a missing key
and the falsy empty string both give the sentinel. -/
def getSelectedLocation (stored : Option String) : String :=
  match stored with
  | some s => if s = "" then DETECTED_LOCATION else s
  | none => DETECTED_LOCATION

/-- Embedding of renderSelectedStation (src/app.js lines 1287-1327) as a
pure function of the geolocation state, the cached snapshot and the
persisted selection.  Returns what is rendered together with the selection
as persisted after the call (setSelectedLocation writes on the fallback
path only). -/
noncomputable def renderSelectedStation (geo : GeoState)
    (cached : Option (List (String × Station))) (stored : Option String) :
    RenderOutcome × Option String :=
  match cached with
  | none => (.noop, stored)
  | some stations =>
    if stations.length = 0 then (.noData, stored)
    else
      let sel := getSelectedLocation stored
      match getStationForLocation geo stations sel with
      | some (st, d) => (.display st d, stored)
      | none =>
        if sel = DETECTED_LOCATION then
          match geo.status with
          | .denied => (.errDenied, stored)
          | .unavailable => (.errUnavailable, stored)
          | _ => (.pendingSearch, stored)
        else
          match getStationForLocation geo stations DETECTED_LOCATION with
          | some (st, d) => (.display st d, some DETECTED_LOCATION)
          | none => (.silent, some DETECTED_LOCATION)

/-- Application state relevant to the geolocation request discipline:
status, sticky coordinates, the number of outstanding getCurrentPosition
requests (model bookkeeping for the claim about overlap), and the persisted
selection. -/
structure GeoAppState where
  status : GeoStatus
  coords : Option (ℝ × ℝ)
  pending : ℕ
  stored : Option String

/-- Embedding of Geolocation.request (src/app.js lines 763-806): without
platform capability, go directly to unavailable; otherwise issue a
position request unconditionally — the source has no in-flight guard, so
pending grows by one each call. -/
def geoRequest (hasGeo : Bool) (s : GeoAppState) : GeoAppState :=
  if hasGeo then { s with pending := s.pending + 1 }
  else { s with status := .unavailable }

/-- Embedding of Geolocation.retry (src/app.js lines 812-816): reset
status to unknown and call request. -/
def geoRetry (hasGeo : Bool) (s : GeoAppState) : GeoAppState :=
  geoRequest hasGeo { s with status := .unknown }

/-- External events driving the geolocation discipline: a successful data
fetch (which calls Geolocation.request, src/app.js line 888), a dropdown
selection (LocationPicker.select, src/app.js lines 1169-1181, which calls
retry when the sentinel is selected without cached coordinates), and the
resolution of one outstanding position request (the success and failure
callbacks of getCurrentPosition). -/
inductive GeoEvent where
  | fetchSuccess
  | select (value : String)
  | geoSuccess (lat lon : ℝ)
  | geoFail (code : ℕ)

/-- One step of the event-driven geolocation discipline.  Callback events
resolve one outstanding request (they are no-ops when none is pending);
the success callback sets granted and overwrites the coordinates, and on
first visit persists the sentinel selection; the failure callback maps
error code 1 to denied and everything else to unavailable, leaving the
coordinates sticky. -/
def geoStep (hasGeo : Bool) (s : GeoAppState) : GeoEvent → GeoAppState
  | .fetchSuccess => geoRequest hasGeo s
  | .select v =>
    let s1 := { s with stored := some v }
    if v = DETECTED_LOCATION then
      if s1.coords.isNone then geoRetry hasGeo s1 else s1
    else s1
  | .geoSuccess lat lon =>
    if s.pending = 0 then s
    else
      let s1 := { s with pending := s.pending - 1, status := GeoStatus.granted,
                         coords := some (lat, lon) }
      if s1.stored.isNone then { s1 with stored := some DETECTED_LOCATION } else s1
  | .geoFail code =>
    if s.pending = 0 then s
    else
      { s with pending := s.pending - 1,
               status := if code = 1 then GeoStatus.denied else GeoStatus.unavailable }

/-- Run a list of events from a state. -/
def geoRun (hasGeo : Bool) (s : GeoAppState) (events : List GeoEvent) : GeoAppState :=
  events.foldl (geoStep hasGeo) s

/-- First-visit initial state: status unknown, no coordinates, no request
outstanding, nothing persisted. -/
def geoInit : GeoAppState :=
  { status := .unknown, coords := none, pending := 0, stored := none }

/-- Round trip svgToLatLon after latLonToSvg is the identity whenever the
zoom scale is nonzero (pure algebra of the equirectangular projection). -/
theorem svgToLatLon_latLonToSvg (z : Zoom) (lat lon : ℝ) (hs : z.scale ≠ 0) :
    svgToLatLon z (latLonToSvg z lat lon).1 (latLonToSvg z lat lon).2 = (lat, lon) := by
  unfold svgToLatLon latLonToSvg latLonToBase viewBoxWidth originalWidth latCorrection
    viewBoxHeight boundsMinLon boundsMaxLon boundsMinLat boundsMaxLat
  simp only [Prod.mk.injEq]
  constructor
  · field_simp
    ring
  · field_simp
    ring

/-- C2: for every point inside the configured bounding box and every
viewport state with scale in [1, 6] and arbitrary pan, svgToLatLon applied
to latLonToSvg returns the original latitude and longitude exactly
(unproject inverts project). -/
theorem projection_round_trip (z : Zoom) (lat lon : ℝ)
    (hlat1 : boundsMinLat ≤ lat) (hlat2 : lat ≤ boundsMaxLat)
    (hlon1 : boundsMinLon ≤ lon) (hlon2 : lon ≤ boundsMaxLon)
    (hs1 : minZoom ≤ z.scale) (hs2 : z.scale ≤ maxZoom) :
    svgToLatLon z (latLonToSvg z lat lon).1 (latLonToSvg z lat lon).2 = (lat, lon) := by
  have hs : z.scale ≠ 0 := by
    have h1 : (1 : ℝ) ≤ z.scale := by
      have := hs1
      rwa [minZoom] at this
    intro h
    rw [h] at h1
    norm_num at h1
  exact svgToLatLon_latLonToSvg z lat lon hs

/-- Witness for C2 at lat 45, lon 16, scale 2, pan (7, 9). -/
theorem projection_round_trip_witness :
    boundsMinLat ≤ (45 : ℝ) ∧ (45 : ℝ) ≤ boundsMaxLat ∧
    boundsMinLon ≤ (16 : ℝ) ∧ (16 : ℝ) ≤ boundsMaxLon ∧
    minZoom ≤ (Zoom.mk 2 7 9).scale ∧ (Zoom.mk 2 7 9).scale ≤ maxZoom ∧
    svgToLatLon ⟨2, 7, 9⟩ (latLonToSvg ⟨2, 7, 9⟩ 45 16).1
      (latLonToSvg ⟨2, 7, 9⟩ 45 16).2 = (45, 16) := by
  refine ⟨?_, ?_, ?_, ?_, ?_, ?_, ?_⟩
  · rw [boundsMinLat]; norm_num
  · rw [boundsMaxLat]; norm_num
  · rw [boundsMinLon]; norm_num
  · rw [boundsMaxLon]; norm_num
  · rw [minZoom]; norm_num
  · rw [maxZoom]; norm_num
  · exact projection_round_trip ⟨2, 7, 9⟩ 45 16 (by rw [boundsMinLat]; norm_num)
      (by rw [boundsMaxLat]; norm_num) (by rw [boundsMinLon]; norm_num)
      (by rw [boundsMaxLon]; norm_num) (by rw [minZoom]; norm_num)
      (by rw [maxZoom]; norm_num)

/-- C10: when the requested scale clamped to [minZoom, maxZoom] equals the
current scale, zoomTo leaves the whole viewport state unchanged. -/
theorem zoomTo_noop (z : Zoom) (t cx cy : ℝ)
    (h : max minZoom (min maxZoom t) = z.scale) :
    zoomTo z t cx cy = z := by
  unfold zoomTo
  simp [h]

/-- Witness for C10: an inward zoom attempted at maxZoom (scale 6, target
8) is a complete no-op on the viewport. -/
theorem zoomTo_noop_witness :
    max minZoom (min maxZoom (8 : ℝ)) = (Zoom.mk 6 3 4).scale ∧
    zoomTo ⟨6, 3, 4⟩ 8 100 50 = ⟨6, 3, 4⟩ := by
  have h : max minZoom (min maxZoom (8 : ℝ)) = (Zoom.mk 6 3 4).scale := by
    rw [minZoom, maxZoom]
    norm_num [min_def, max_def]
  exact ⟨h, zoomTo_noop ⟨6, 3, 4⟩ 8 100 50 h⟩

/-- Projecting back the unprojected point recovers the base coordinates. -/
theorem latLonToBase_svgToLatLon (z : Zoom) (x y : ℝ) (hs : z.scale ≠ 0) :
    latLonToBase (svgToLatLon z x y).1 (svgToLatLon z x y).2 =
      (x / z.scale + z.x, y / z.scale + z.y) := by
  unfold latLonToBase svgToLatLon viewBoxWidth originalWidth latCorrection
    viewBoxHeight boundsMinLon boundsMaxLon boundsMinLat boundsMaxLat
  simp only [Prod.mk.injEq]
  constructor
  · field_simp
    ring
  · field_simp
    ring

/-- Round trip in the other direction: latLonToSvg after svgToLatLon is
the identity whenever the zoom scale is nonzero. -/
theorem latLonToSvg_svgToLatLon (z : Zoom) (x y : ℝ) (hs : z.scale ≠ 0) :
    latLonToSvg z (svgToLatLon z x y).1 (svgToLatLon z x y).2 = (x, y) := by
  unfold latLonToSvg
  rw [latLonToBase_svgToLatLon z x y hs]
  simp only [Prod.mk.injEq]
  constructor
  · field_simp
    ring
  · field_simp
    ring

/-- C3 (amended): zoomTo keeps the screen position of the geographic point
under (cx, cy) exactly, provided the re-derived pan already satisfies the
clamp constraints; when the clamped target scale equals the current scale
the viewport is untouched and the point trivially stays.  In particular
zooming from scale 1 (pan 0) to scale 4 centered at any point of the view
box leaves that point's projection unchanged. -/
theorem zoomTo_keeps_center :
    (∀ (z : Zoom) (t cx cy : ℝ), z.scale ≠ 0 →
      0 ≤ cx / z.scale + z.x - cx / max minZoom (min maxZoom t) →
      cx / z.scale + z.x - cx / max minZoom (min maxZoom t) ≤
        viewBoxWidth - viewBoxWidth / max minZoom (min maxZoom t) →
      0 ≤ cy / z.scale + z.y - cy / max minZoom (min maxZoom t) →
      cy / z.scale + z.y - cy / max minZoom (min maxZoom t) ≤
        viewBoxHeight - viewBoxHeight / max minZoom (min maxZoom t) →
      latLonToSvg (zoomTo z t cx cy) (svgToLatLon z cx cy).1
        (svgToLatLon z cx cy).2 = (cx, cy)) ∧
    (∀ cx cy : ℝ, 0 ≤ cx → cx ≤ viewBoxWidth → 0 ≤ cy → cy ≤ viewBoxHeight →
      latLonToSvg (zoomTo ⟨1, 0, 0⟩ 4 cx cy) (svgToLatLon ⟨1, 0, 0⟩ cx cy).1
        (svgToLatLon ⟨1, 0, 0⟩ cx cy).2 = (cx, cy)) := by
  have main : ∀ (z : Zoom) (t cx cy : ℝ), z.scale ≠ 0 →
      0 ≤ cx / z.scale + z.x - cx / max minZoom (min maxZoom t) →
      cx / z.scale + z.x - cx / max minZoom (min maxZoom t) ≤
        viewBoxWidth - viewBoxWidth / max minZoom (min maxZoom t) →
      0 ≤ cy / z.scale + z.y - cy / max minZoom (min maxZoom t) →
      cy / z.scale + z.y - cy / max minZoom (min maxZoom t) ≤
        viewBoxHeight - viewBoxHeight / max minZoom (min maxZoom t) →
      latLonToSvg (zoomTo z t cx cy) (svgToLatLon z cx cy).1
        (svgToLatLon z cx cy).2 = (cx, cy) := by
    intro z t cx cy hs hx1 hx2 hy1 hy2
    have h1 : (1 : ℝ) ≤ max minZoom (min maxZoom t) := by
      simpa [minZoom] using le_max_left minZoom (min maxZoom t)
    have hns0 : max minZoom (min maxZoom t) ≠ 0 := by
      intro h
      rw [h] at h1
      norm_num at h1
    unfold zoomTo
    by_cases heq : max minZoom (min maxZoom t) = z.scale
    · simp only [heq, if_pos rfl]
      exact latLonToSvg_svgToLatLon z cx cy hs
    · simp only [if_neg heq]
      have hclamp :
          clampPan ⟨max minZoom (min maxZoom t),
            cx / z.scale + z.x - cx / max minZoom (min maxZoom t),
            cy / z.scale + z.y - cy / max minZoom (min maxZoom t)⟩ =
          ⟨max minZoom (min maxZoom t),
            cx / z.scale + z.x - cx / max minZoom (min maxZoom t),
            cy / z.scale + z.y - cy / max minZoom (min maxZoom t)⟩ := by
        unfold clampPan
        simp only
        rw [min_eq_left hx2, max_eq_right hx1, min_eq_left hy2, max_eq_right hy1]
      rw [hclamp]
      unfold latLonToSvg
      rw [latLonToBase_svgToLatLon z cx cy hs]
      simp only [Prod.mk.injEq]
      constructor
      · field_simp
        ring
      · field_simp
        ring
  refine ⟨main, ?_⟩
  intro cx cy h1 h2 h3 h4
  have hns : max minZoom (min maxZoom (4 : ℝ)) = 4 := by
    rw [minZoom, maxZoom]
    norm_num [min_def, max_def]
  apply main ⟨1, 0, 0⟩ 4 cx cy
  · norm_num
  · simp only [hns]
    norm_num
    linarith
  · simp only [hns]
    norm_num
    linarith
  · simp only [hns]
    norm_num
    linarith
  · simp only [hns]
    norm_num
    linarith

/-- Counterexample for C3 as stated: zooming out from scale 4 with pan
388.875 centered at the view-box origin forces the pan clamp to move the
viewport, so the geographic point that was under (0, 0) is projected at
(388.875, 0) after the call, not at (0, 0). -/
theorem zoomTo_clamp_moves_center :
    latLonToSvg ⟨4, 388.875, 0⟩ (svgToLatLon ⟨4, 388.875, 0⟩ 0 0).1
      (svgToLatLon ⟨4, 388.875, 0⟩ 0 0).2 = (0, 0) ∧
    zoomTo ⟨4, 388.875, 0⟩ 1 0 0 = ⟨1, 0, 0⟩ ∧
    latLonToSvg (zoomTo ⟨4, 388.875, 0⟩ 1 0 0) (svgToLatLon ⟨4, 388.875, 0⟩ 0 0).1
      (svgToLatLon ⟨4, 388.875, 0⟩ 0 0).2 = (388.875, 0) ∧
    ((388.875 : ℝ), (0 : ℝ)) ≠ ((0 : ℝ), (0 : ℝ)) := by
  have hz4 : ((⟨4, 388.875, 0⟩ : Zoom)).scale ≠ 0 := by norm_num
  have hzoom : zoomTo ⟨4, 388.875, 0⟩ 1 0 0 = ⟨1, 0, 0⟩ := by
    unfold zoomTo clampPan viewBoxWidth originalWidth latCorrection viewBoxHeight
    norm_num [minZoom, maxZoom, min_def, max_def]
  refine ⟨latLonToSvg_svgToLatLon _ 0 0 hz4, hzoom, ?_, ?_⟩
  · rw [hzoom]
    unfold latLonToSvg
    rw [latLonToBase_svgToLatLon ⟨4, 388.875, 0⟩ 0 0 hz4]
    simp only [Prod.mk.injEq]
    norm_num
  · intro h
    have := congrArg Prod.fst h
    norm_num at this

/-- Witness for the amended C3 at the concrete center (100, 50). -/
theorem zoomTo_keeps_center_witness :
    (0 : ℝ) ≤ 100 ∧ (100 : ℝ) ≤ viewBoxWidth ∧ (0 : ℝ) ≤ 50 ∧
    (50 : ℝ) ≤ viewBoxHeight ∧
    latLonToSvg (zoomTo ⟨1, 0, 0⟩ 4 100 50) (svgToLatLon ⟨1, 0, 0⟩ 100 50).1
      (svgToLatLon ⟨1, 0, 0⟩ 100 50).2 = (100, 50) := by
  have hW : (100 : ℝ) ≤ viewBoxWidth := by
    rw [viewBoxWidth, originalWidth, latCorrection]
    norm_num
  have hH : (50 : ℝ) ≤ viewBoxHeight := by
    rw [viewBoxHeight]
    norm_num
  exact ⟨by norm_num, hW, by norm_num, hH,
    zoomTo_keeps_center.2 100 50 (by norm_num) hW (by norm_num) hH⟩

/-- Once the nearest-station loop holds a candidate it never returns none. -/
theorem nearestLoop_some_of_some :
    ∀ (l : List (String × Station)) (lat lon : ℝ) (m : String) (dm : ℝ),
      ∃ n d, nearestLoop lat lon l (some (m, dm)) = some (n, d) := by
  intro l
  induction l with
  | nil => intro lat lon m dm; exact ⟨m, dm, rfl⟩
  | cons p rest ih =>
    intro lat lon m dm
    by_cases hf : isFiniteStation p.2 = true
    · by_cases hd : stationDist lat lon p.2 < dm
      · obtain ⟨n, d, h⟩ := ih lat lon p.1 (stationDist lat lon p.2)
        exact ⟨n, d, by simpa [nearestLoop, hf, hd] using h⟩
      · obtain ⟨n, d, h⟩ := ih lat lon m dm
        exact ⟨n, d, by simpa [nearestLoop, hf, hd] using h⟩
    · obtain ⟨n, d, h⟩ := ih lat lon m dm
      exact ⟨n, d, by simpa [nearestLoop, hf] using h⟩

/-- Running the nearest-station loop from a held candidate either keeps it,
with every later finite station no closer, or returns a station of the list
that strictly beats the held distance and every earlier finite station, and
that no later finite station beats. -/
theorem nearestLoop_some_characterize (lat lon : ℝ) :
    ∀ (l : List (String × Station)) (m : String) (dm : ℝ) (n : String) (d : ℝ),
      nearestLoop lat lon l (some (m, dm)) = some (n, d) →
      ((n, d) = (m, dm) ∧
        ∀ q ∈ l, isFiniteStation q.2 = true → dm ≤ stationDist lat lon q.2) ∨
      (∃ l1 p l2, l = l1 ++ p :: l2 ∧ p.1 = n ∧ isFiniteStation p.2 = true ∧
        d = stationDist lat lon p.2 ∧ d < dm ∧
        (∀ q ∈ l1, isFiniteStation q.2 = true → d < stationDist lat lon q.2) ∧
        (∀ q ∈ l2, isFiniteStation q.2 = true → d ≤ stationDist lat lon q.2)) := by
  intro l
  induction l with
  | nil =>
    intro m dm n d h
    left
    simp only [nearestLoop, Option.some.injEq, Prod.mk.injEq] at h
    obtain ⟨h1, h2⟩ := h
    subst h1
    subst h2
    exact ⟨rfl, by simp⟩
  | cons p rest ih =>
    intro m dm n d h
    by_cases hf : isFiniteStation p.2 = true
    · by_cases hd : stationDist lat lon p.2 < dm
      · have h' : nearestLoop lat lon rest (some (p.1, stationDist lat lon p.2)) =
            some (n, d) := by simpa [nearestLoop, hf, hd] using h
        rcases ih p.1 (stationDist lat lon p.2) n d h' with ⟨heq, hall⟩ |
          ⟨l1, w, l2, hsplit, hwn, hwf, hwd, hwlt, hb, ha⟩
        · right
          rw [Prod.mk.injEq] at heq
          obtain ⟨h1, h2⟩ := heq
          subst h1
          subst h2
          refine ⟨[], p, rest, by simp, rfl, hf, rfl, hd, by simp, ?_⟩
          intro q hq hqf
          exact hall q hq hqf
        · right
          refine ⟨p :: l1, w, l2, by simp [hsplit], hwn, hwf, hwd,
            lt_trans hwlt hd, ?_, ha⟩
          intro q hq hqf
          rcases List.mem_cons.mp hq with rfl | hq'
          · exact hwlt
          · exact hb q hq' hqf
      · have h' : nearestLoop lat lon rest (some (m, dm)) = some (n, d) := by
          simpa [nearestLoop, hf, hd] using h
        rcases ih m dm n d h' with ⟨heq, hall⟩ |
          ⟨l1, w, l2, hsplit, hwn, hwf, hwd, hwlt, hb, ha⟩
        · left
          refine ⟨heq, ?_⟩
          intro q hq hqf
          rcases List.mem_cons.mp hq with rfl | hq'
          · exact not_lt.mp hd
          · exact hall q hq' hqf
        · right
          refine ⟨p :: l1, w, l2, by simp [hsplit], hwn, hwf, hwd, hwlt, ?_, ha⟩
          intro q hq hqf
          rcases List.mem_cons.mp hq with rfl | hq'
          · exact lt_of_lt_of_le hwlt (not_lt.mp hd)
          · exact hb q hq' hqf
    · have h' : nearestLoop lat lon rest (some (m, dm)) = some (n, d) := by
        simpa [nearestLoop, hf] using h
      rcases ih m dm n d h' with ⟨heq, hall⟩ |
        ⟨l1, w, l2, hsplit, hwn, hwf, hwd, hwlt, hb, ha⟩
      · left
        refine ⟨heq, ?_⟩
        intro q hq hqf
        rcases List.mem_cons.mp hq with rfl | hq'
        · exact absurd hqf hf
        · exact hall q hq' hqf
      · right
        refine ⟨p :: l1, w, l2, by simp [hsplit], hwn, hwf, hwd, hwlt, ?_, ha⟩
        intro q hq hqf
        rcases List.mem_cons.mp hq with rfl | hq'
        · exact absurd hqf hf
        · exact hb q hq' hqf

/-- The nearest-station loop started empty returns none exactly when no
station with finite coordinates occurs in the list. -/
theorem nearestLoop_none_iff (lat lon : ℝ) :
    ∀ l, nearestLoop lat lon l none = none ↔
      ∀ q ∈ l, isFiniteStation q.2 = false := by
  intro l
  induction l with
  | nil => simp [nearestLoop]
  | cons p rest ih =>
    by_cases hf : isFiniteStation p.2 = true
    · constructor
      · intro h
        obtain ⟨n, d, hnd⟩ :=
          nearestLoop_some_of_some rest lat lon p.1 (stationDist lat lon p.2)
        have h' : nearestLoop lat lon rest
            (some (p.1, stationDist lat lon p.2)) = none := by
          simpa [nearestLoop, hf] using h
        rw [hnd] at h'
        cases h'
      · intro h
        have := h p (List.mem_cons_self p rest)
        rw [hf] at this
        cases this
    · have hf' : isFiniteStation p.2 = false := by simpa using hf
      simp only [nearestLoop, hf']
      simp only [Bool.false_eq_true, if_false]
      rw [ih]
      constructor
      · intro h q hq
        rcases List.mem_cons.mp hq with rfl | hq'
        · exact hf'
        · exact h q hq'
      · intro h q hq
        exact h q (List.mem_cons_of_mem p hq)

/-- Characterization of a some result of findNearestStation: the winner is
a finite-coordinate entry of the snapshot, its distance is the returned
one, it strictly beats every earlier finite entry and is no farther than
every later finite entry. -/
theorem findNearestStation_some_characterize (lat lon : ℝ) :
    ∀ (stations : List (String × Station)) (n : String) (d : ℝ),
      findNearestStation stations lat lon = some (n, d) →
      ∃ l1 p l2, stations = l1 ++ p :: l2 ∧ p.1 = n ∧
        isFiniteStation p.2 = true ∧ d = stationDist lat lon p.2 ∧
        (∀ q ∈ l1, isFiniteStation q.2 = true → d < stationDist lat lon q.2) ∧
        (∀ q ∈ l2, isFiniteStation q.2 = true → d ≤ stationDist lat lon q.2) := by
  intro stations
  induction stations with
  | nil =>
    intro n d h
    cases h
  | cons p rest ih =>
    intro n d h
    by_cases hf : isFiniteStation p.2 = true
    · have h' : nearestLoop lat lon rest (some (p.1, stationDist lat lon p.2)) =
          some (n, d) := by
        simpa [findNearestStation, nearestLoop, hf] using h
      rcases nearestLoop_some_characterize lat lon rest p.1
          (stationDist lat lon p.2) n d h' with ⟨heq, hall⟩ |
        ⟨l1, w, l2, hsplit, hwn, hwf, hwd, hwlt, hb, ha⟩
      · rw [Prod.mk.injEq] at heq
        obtain ⟨h1, h2⟩ := heq
        subst h1
        subst h2
        exact ⟨[], p, rest, by simp, rfl, hf, rfl, by simp, hall⟩
      · refine ⟨p :: l1, w, l2, by simp [hsplit], hwn, hwf, hwd, ?_, ha⟩
        intro q hq hqf
        rcases List.mem_cons.mp hq with rfl | hq'
        · exact hwlt
        · exact hb q hq' hqf
    · have h' : findNearestStation rest lat lon = some (n, d) := by
        simpa [findNearestStation, nearestLoop, hf] using h
      obtain ⟨l1, w, l2, hsplit, hwn, hwf, hwd, hb, ha⟩ := ih n d h'
      refine ⟨p :: l1, w, l2, by simp [hsplit], hwn, hwf, hwd, ?_, ha⟩
      intro q hq hqf
      rcases List.mem_cons.mp hq with rfl | hq'
      · exact absurd hqf hf
      · exact hb q hq' hqf

/-- Dropping the non-finite stations from the snapshot does not change the
nearest-station loop. -/
theorem nearestLoop_filter (lat lon : ℝ) :
    ∀ (l : List (String × Station)) (acc : Option (String × ℝ)),
      nearestLoop lat lon (l.filter (fun q => isFiniteStation q.2)) acc =
        nearestLoop lat lon l acc := by
  intro l
  induction l with
  | nil => intro acc; rfl
  | cons p rest ih =>
    intro acc
    by_cases hf : isFiniteStation p.2 = true
    · have hfil : (p :: rest).filter (fun q => isFiniteStation q.2) =
          p :: rest.filter (fun q => isFiniteStation q.2) := by
        simp [List.filter_cons, hf]
      rw [hfil]
      cases acc with
      | none =>
        simp only [nearestLoop, hf, if_true]
        exact ih _
      | some md =>
        obtain ⟨m, dm⟩ := md
        by_cases hd : stationDist lat lon p.2 < dm
        · simp [nearestLoop, hf, hd]
          exact ih _
        · simp [nearestLoop, hf, hd]
          exact ih _
    · have hf' : isFiniteStation p.2 = false := by simpa using hf
      have hfil : (p :: rest).filter (fun q => isFiniteStation q.2) =
          rest.filter (fun q => isFiniteStation q.2) := by
        simp [List.filter_cons, hf']
      rw [hfil]
      have : nearestLoop lat lon (p :: rest) acc = nearestLoop lat lon rest acc := by
        simp [nearestLoop, hf']
      rw [this]
      exact ih acc

/-- C1: findNearestStation returns none exactly when no station of the
snapshot has finite coordinates; a some result names a finite-coordinate
station of the snapshot at its haversine distance (Earth radius 6371 km)
from the query point, minimal among all finite-coordinate stations, with
ties resolved for the first such station in iteration order (the winner
strictly beats every earlier finite station and is no farther than every
later one); and stations with non-finite coordinates never influence the
result (filtering them away first gives the same answer). -/
theorem findNearestStation_spec :
    ∀ (stations : List (String × Station)) (lat lon : ℝ),
      (findNearestStation stations lat lon = none ↔
        ∀ q ∈ stations, ¬(jsIsFinite q.2.lat = true ∧ jsIsFinite q.2.lon = true)) ∧
      (∀ n d, findNearestStation stations lat lon = some (n, d) →
        ∃ l1 p l2, stations = l1 ++ p :: l2 ∧ p.1 = n ∧
          jsIsFinite p.2.lat = true ∧ jsIsFinite p.2.lon = true ∧
          d = haversineDistance lat lon p.2.lat.val p.2.lon.val ∧
          (∀ q ∈ l1, jsIsFinite q.2.lat = true → jsIsFinite q.2.lon = true →
            d < haversineDistance lat lon q.2.lat.val q.2.lon.val) ∧
          (∀ q ∈ l2, jsIsFinite q.2.lat = true → jsIsFinite q.2.lon = true →
            d ≤ haversineDistance lat lon q.2.lat.val q.2.lon.val)) ∧
      findNearestStation (stations.filter (fun q => isFiniteStation q.2)) lat lon =
        findNearestStation stations lat lon := by
  intro stations lat lon
  refine ⟨?_, ?_, ?_⟩
  · rw [findNearestStation, nearestLoop_none_iff]
    constructor
    · intro h q hq
      have := h q hq
      rw [isFiniteStation, Bool.and_eq_false_eq_eq_false_or_eq_false] at this
      rcases this with h1 | h1
      · intro hc
        rw [hc.1] at h1
        cases h1
      · intro hc
        rw [hc.2] at h1
        cases h1
    · intro h q hq
      have hnq := h q hq
      rw [isFiniteStation]
      cases hlat : jsIsFinite q.2.lat with
      | false => rfl
      | true =>
        cases hlon : jsIsFinite q.2.lon with
        | false => rfl
        | true => exact absurd ⟨hlat, hlon⟩ hnq
  · intro n d h
    obtain ⟨l1, w, l2, hsplit, hwn, hwf, hwd, hb, ha⟩ :=
      findNearestStation_some_characterize lat lon stations n d h
    rw [isFiniteStation, Bool.and_eq_true] at hwf
    refine ⟨l1, w, l2, hsplit, hwn, hwf.1, hwf.2, hwd, ?_, ?_⟩
    · intro q hq hq1 hq2
      exact hb q hq (by rw [isFiniteStation, Bool.and_eq_true]; exact ⟨hq1, hq2⟩)
    · intro q hq hq1 hq2
      exact ha q hq (by rw [isFiniteStation, Bool.and_eq_true]; exact ⟨hq1, hq2⟩)
  · rw [findNearestStation, findNearestStation, nearestLoop_filter]

/-- Once the snap loop holds a candidate it never returns none. -/
theorem snapLoop_some_of_some :
    ∀ (l : List (String × Station)) (lat lon : ℝ) (m : String) (r : ℝ),
      ∃ n, snapLoop lat lon l (some m) r = some n := by
  intro l
  induction l with
  | nil => intro lat lon m r; exact ⟨m, rfl⟩
  | cons p rest ih =>
    intro lat lon m r
    by_cases hf : isFiniteStation p.2 = true
    · by_cases hd : stationDist lat lon p.2 < r
      · obtain ⟨n, h⟩ := ih lat lon p.1 (stationDist lat lon p.2)
        exact ⟨n, by simpa [snapLoop, hf, hd] using h⟩
      · obtain ⟨n, h⟩ := ih lat lon m r
        exact ⟨n, by simpa [snapLoop, hf, hd] using h⟩
    · obtain ⟨n, h⟩ := ih lat lon m r
      exact ⟨n, by simpa [snapLoop, hf] using h⟩

/-- Running the snap loop from a held candidate and radius either keeps
the candidate, with every finite station of the list at least the radius
away, or returns a station that is strictly within the radius, strictly
beats every earlier finite station, and is matched by no later one. -/
theorem snapLoop_some_characterize (lat lon : ℝ) :
    ∀ (l : List (String × Station)) (m : String) (r : ℝ) (n : String),
      snapLoop lat lon l (some m) r = some n →
      (n = m ∧ ∀ q ∈ l, isFiniteStation q.2 = true → r ≤ stationDist lat lon q.2) ∨
      (∃ l1 p l2, l = l1 ++ p :: l2 ∧ p.1 = n ∧ isFiniteStation p.2 = true ∧
        stationDist lat lon p.2 < r ∧
        (∀ q ∈ l1, isFiniteStation q.2 = true →
          stationDist lat lon p.2 < stationDist lat lon q.2) ∧
        (∀ q ∈ l2, isFiniteStation q.2 = true →
          stationDist lat lon p.2 ≤ stationDist lat lon q.2)) := by
  intro l
  induction l with
  | nil =>
    intro m r n h
    left
    simp only [snapLoop, Option.some.injEq] at h
    subst h
    exact ⟨rfl, by simp⟩
  | cons p rest ih =>
    intro m r n h
    by_cases hf : isFiniteStation p.2 = true
    · by_cases hd : stationDist lat lon p.2 < r
      · have h' : snapLoop lat lon rest (some p.1) (stationDist lat lon p.2) =
            some n := by simpa [snapLoop, hf, hd] using h
        rcases ih p.1 (stationDist lat lon p.2) n h' with ⟨heq, hall⟩ |
          ⟨l1, w, l2, hsplit, hwn, hwf, hwlt, hb, ha⟩
        · right
          subst heq
          exact ⟨[], p, rest, by simp, rfl, hf, hd, by simp, hall⟩
        · right
          have hwp : stationDist lat lon w.2 < stationDist lat lon p.2 := by
            rcases hsplit with rfl
            exact hwlt
          refine ⟨p :: l1, w, l2, by simp [hsplit], hwn, hwf,
            lt_trans hwp hd, ?_, ha⟩
          intro q hq hqf
          rcases List.mem_cons.mp hq with rfl | hq'
          · exact hwp
          · exact hb q hq' hqf
      · have h' : snapLoop lat lon rest (some m) r = some n := by
          simpa [snapLoop, hf, hd] using h
        rcases ih m r n h' with ⟨heq, hall⟩ |
          ⟨l1, w, l2, hsplit, hwn, hwf, hwlt, hb, ha⟩
        · left
          refine ⟨heq, ?_⟩
          intro q hq hqf
          rcases List.mem_cons.mp hq with rfl | hq'
          · exact not_lt.mp hd
          · exact hall q hq' hqf
        · right
          refine ⟨p :: l1, w, l2, by simp [hsplit], hwn, hwf, hwlt, ?_, ha⟩
          intro q hq hqf
          rcases List.mem_cons.mp hq with rfl | hq'
          · exact lt_of_lt_of_le hwlt (not_lt.mp hd)
          · exact hb q hq' hqf
    · have h' : snapLoop lat lon rest (some m) r = some n := by
        simpa [snapLoop, hf] using h
      rcases ih m r n h' with ⟨heq, hall⟩ |
        ⟨l1, w, l2, hsplit, hwn, hwf, hwlt, hb, ha⟩
      · left
        refine ⟨heq, ?_⟩
        intro q hq hqf
        rcases List.mem_cons.mp hq with rfl | hq'
        · exact absurd hqf hf
        · exact hall q hq' hqf
      · right
        refine ⟨p :: l1, w, l2, by simp [hsplit], hwn, hwf, hwlt, ?_, ha⟩
        intro q hq hqf
        rcases List.mem_cons.mp hq with rfl | hq'
        · exact absurd hqf hf
        · exact hb q hq' hqf

/-- The snap loop started empty returns none exactly when every finite
station is at least the radius away. -/
theorem snapLoop_none_iff (lat lon : ℝ) :
    ∀ (l : List (String × Station)) (r : ℝ),
      snapLoop lat lon l none r = none ↔
        ∀ q ∈ l, isFiniteStation q.2 = true → r ≤ stationDist lat lon q.2 := by
  intro l
  induction l with
  | nil => intro r; simp [snapLoop]
  | cons p rest ih =>
    intro r
    by_cases hf : isFiniteStation p.2 = true
    · by_cases hd : stationDist lat lon p.2 < r
      · constructor
        · intro h
          obtain ⟨n, hn⟩ := snapLoop_some_of_some rest lat lon p.1
            (stationDist lat lon p.2)
          have h' : snapLoop lat lon rest (some p.1)
              (stationDist lat lon p.2) = none := by
            simpa [snapLoop, hf, hd] using h
          rw [hn] at h'
          cases h'
        · intro h
          have := h p (List.mem_cons_self p rest) hf
          exact absurd hd (not_lt.mpr this)
      · have hstep : snapLoop lat lon (p :: rest) none r =
            snapLoop lat lon rest none r := by
          simp [snapLoop, hf, hd]
        rw [hstep, ih r]
        constructor
        · intro h q hq hqf
          rcases List.mem_cons.mp hq with rfl | hq'
          · exact not_lt.mp hd
          · exact h q hq' hqf
        · intro h q hq hqf
          exact h q (List.mem_cons_of_mem p hq) hqf
    · have hstep : snapLoop lat lon (p :: rest) none r =
          snapLoop lat lon rest none r := by
        simp [snapLoop, hf]
      rw [hstep, ih r]
      constructor
      · intro h q hq hqf
        rcases List.mem_cons.mp hq with rfl | hq'
        · exact absurd hqf hf
        · exact h q hq' hqf
      · intro h q hq hqf
        exact h q (List.mem_cons_of_mem p hq) hqf

/-- Characterization of a some result of the snap loop started empty. -/
theorem snapLoop_some_from_none (lat lon : ℝ) :
    ∀ (l : List (String × Station)) (r : ℝ) (n : String),
      snapLoop lat lon l none r = some n →
      ∃ l1 p l2, l = l1 ++ p :: l2 ∧ p.1 = n ∧ isFiniteStation p.2 = true ∧
        stationDist lat lon p.2 < r ∧
        (∀ q ∈ l1, isFiniteStation q.2 = true →
          stationDist lat lon p.2 < stationDist lat lon q.2) ∧
        (∀ q ∈ l2, isFiniteStation q.2 = true →
          stationDist lat lon p.2 ≤ stationDist lat lon q.2) := by
  intro l
  induction l with
  | nil =>
    intro r n h
    cases h
  | cons p rest ih =>
    intro r n h
    by_cases hf : isFiniteStation p.2 = true
    · by_cases hd : stationDist lat lon p.2 < r
      · have h' : snapLoop lat lon rest (some p.1) (stationDist lat lon p.2) =
            some n := by simpa [snapLoop, hf, hd] using h
        rcases snapLoop_some_characterize lat lon rest p.1
            (stationDist lat lon p.2) n h' with ⟨heq, hall⟩ |
          ⟨l1, w, l2, hsplit, hwn, hwf, hwlt, hb, ha⟩
        · subst heq
          exact ⟨[], p, rest, by simp, rfl, hf, hd, by simp, hall⟩
        · refine ⟨p :: l1, w, l2, by simp [hsplit], hwn, hwf,
            lt_trans hwlt hd, ?_, ha⟩
          intro q hq hqf
          rcases List.mem_cons.mp hq with rfl | hq'
          · exact hwlt
          · exact hb q hq' hqf
      · have h' : snapLoop lat lon rest none r = some n := by
          simpa [snapLoop, hf, hd] using h
        obtain ⟨l1, w, l2, hsplit, hwn, hwf, hwlt, hb, ha⟩ := ih r n h'
        refine ⟨p :: l1, w, l2, by simp [hsplit], hwn, hwf, hwlt, ?_, ha⟩
        intro q hq hqf
        rcases List.mem_cons.mp hq with rfl | hq'
        · exact lt_of_lt_of_le hwlt (not_lt.mp hd)
        · exact hb q hq' hqf
    · have h' : snapLoop lat lon rest none r = some n := by
        simpa [snapLoop, hf] using h
      obtain ⟨l1, w, l2, hsplit, hwn, hwf, hwlt, hb, ha⟩ := ih r n h'
      refine ⟨p :: l1, w, l2, by simp [hsplit], hwn, hwf, hwlt, ?_, ha⟩
      intro q hq hqf
      rcases List.mem_cons.mp hq with rfl | hq'
      · exact absurd hqf hf
      · exact hb q hq' hqf

/-- C6 (amended): findNearestWithinSnap uses the effective radius
snapDistance / scale (20 km divided by the current zoom scale); with no
cached snapshot it returns none; it returns none exactly when every
finite-coordinate station lies at a distance greater than or equal to the
radius (the boundary is exclusive: a station exactly at the radius is not
snapped); otherwise it returns the first-encountered closest
finite-coordinate station, whose distance is strictly below the radius. -/
theorem findNearestWithinSnap_spec :
    ∀ (scale lat lon : ℝ),
      findNearestWithinSnap none scale lat lon = none ∧
      (∀ stations, findNearestWithinSnap (some stations) scale lat lon = none ↔
        ∀ q ∈ stations, isFiniteStation q.2 = true →
          snapDistance / scale ≤ stationDist lat lon q.2) ∧
      (∀ stations n, findNearestWithinSnap (some stations) scale lat lon = some n →
        ∃ l1 p l2, stations = l1 ++ p :: l2 ∧ p.1 = n ∧
          isFiniteStation p.2 = true ∧
          stationDist lat lon p.2 < snapDistance / scale ∧
          (∀ q ∈ l1, isFiniteStation q.2 = true →
            stationDist lat lon p.2 < stationDist lat lon q.2) ∧
          (∀ q ∈ l2, isFiniteStation q.2 = true →
            stationDist lat lon p.2 ≤ stationDist lat lon q.2)) := by
  intro scale lat lon
  refine ⟨rfl, ?_, ?_⟩
  · intro stations
    exact snapLoop_none_iff lat lon stations (snapDistance / scale)
  · intro stations n h
    exact snapLoop_some_from_none lat lon stations (snapDistance / scale) n h

/-- The JS atan2 of (sin t, cos t) recovers t in the principal range. -/
theorem atan2_sin_cos (t : ℝ) (h1 : -(Real.pi / 2) < t) (h2 : t < Real.pi / 2) :
    atan2 (Real.sin t) (Real.cos t) = t := by
  have hcos : 0 < Real.cos t := Real.cos_pos_of_mem_Ioo ⟨h1, h2⟩
  unfold atan2
  rw [if_pos hcos]
  rw [← Real.tan_eq_sin_div_cos]
  exact Real.arctan_tan h1 h2

/-- Exact haversine distance between the equatorial points (0, 0) and
(0, 0.1): a tenth of a degree of longitude on the equator. -/
theorem haversine_0_01 : haversineDistance 0 0 0 (1 / 10) = 6371 * Real.pi / 1800 := by
  have hpi := Real.pi_pos
  have ht0 : 0 < Real.pi / 3600 := by positivity
  have ht2 : Real.pi / 3600 < Real.pi / 2 := by nlinarith
  have ht1 : -(Real.pi / 2) < Real.pi / 3600 := by nlinarith
  have htpi : Real.pi / 3600 ≤ Real.pi := by nlinarith
  have hsin : 0 ≤ Real.sin (Real.pi / 3600) :=
    Real.sin_nonneg_of_nonneg_of_le_pi (le_of_lt ht0) htpi
  have hcos : 0 ≤ Real.cos (Real.pi / 3600) :=
    le_of_lt (Real.cos_pos_of_mem_Ioo ⟨ht1, ht2⟩)
  have harg : ((1 / 10 : ℝ) - 0) * Real.pi / 180 / 2 = Real.pi / 3600 := by ring
  have hz : ((0 : ℝ) - 0) * Real.pi / 180 / 2 = 0 := by ring
  have hz2 : (0 : ℝ) * Real.pi / 180 = 0 := by ring
  simp only [haversineDistance]
  rw [harg, hz, hz2, Real.sin_zero, Real.cos_zero]
  have ha : (0 : ℝ) ^ 2 + 1 * 1 * Real.sin (Real.pi / 3600) ^ 2 =
      Real.sin (Real.pi / 3600) ^ 2 := by ring
  rw [ha]
  rw [Real.sqrt_sq hsin]
  have hb : 1 - Real.sin (Real.pi / 3600) ^ 2 = Real.cos (Real.pi / 3600) ^ 2 := by
    have := Real.sin_sq_add_cos_sq (Real.pi / 3600)
    linarith
  rw [hb, Real.sqrt_sq hcos]
  rw [atan2_sin_cos _ ht1 ht2]
  ring

/-- Station on the equator a tenth of a degree of longitude east of the
origin, used for the snap boundary counterexample. -/
noncomputable def snapStation : Station :=
  { name := "S", lat := .fin 0, lon := .fin (1 / 10), temperature := .fin 20,
    humidity := none, pressure := none, pressureTrend := none,
    windDirection := .null, windSpeed := none, condition := none,
    measurementTime := none }

/-- Counterexample for C6 as stated: at zoom scale 36000 / (6371 pi) — a
valid scale between 1 and 6 — the effective radius 20 / scale equals the
haversine distance from (0, 0) to the single station exactly, so the
minimum distance does not exceed the radius, yet findNearestWithinSnap
returns none because the comparison is strict. -/
theorem findNearestWithinSnap_boundary :
    stationDist 0 0 snapStation = snapDistance / (36000 / (6371 * Real.pi)) ∧
    1 ≤ 36000 / (6371 * Real.pi) ∧ 36000 / (6371 * Real.pi) ≤ 6 ∧
    findNearestWithinSnap (some [("S", snapStation)])
      (36000 / (6371 * Real.pi)) 0 0 = none := by
  have hpi := Real.pi_pos
  have hpil := Real.pi_le_four
  have hpig := Real.pi_gt_three
  have hdist : stationDist 0 0 snapStation = 6371 * Real.pi / 1800 := by
    show haversineDistance 0 0 (JSNum.val (.fin 0)) (JSNum.val (.fin (1 / 10))) =
      6371 * Real.pi / 1800
    rw [show JSNum.val (.fin 0) = (0 : ℝ) from rfl,
        show JSNum.val (.fin (1 / 10)) = (1 / 10 : ℝ) from rfl]
    exact haversine_0_01
  have hrad : snapDistance / (36000 / (6371 * Real.pi)) = 6371 * Real.pi / 1800 := by
    rw [snapDistance, div_div_eq_mul_div]
    ring
  have hnlt : ¬(stationDist 0 0 snapStation <
      snapDistance / (36000 / (6371 * Real.pi))) := by
    rw [hdist, hrad]
    exact lt_irrefl _
  have hfin : isFiniteStation snapStation = true := rfl
  refine ⟨by rw [hdist, hrad], ?_, ?_, ?_⟩
  · rw [le_div_iff (by positivity)]
    nlinarith
  · rw [div_le_iff (by positivity)]
    nlinarith
  · simp only [findNearestWithinSnap, snapLoop]
    simp [hfin, hnlt]

/-- The derived start of the day containing now brackets now. -/
theorem dayStart_bracket (now : ℤ) :
    dayMs * Int.ediv now dayMs ≤ now ∧
      now < dayMs * Int.ediv now dayMs + dayMs := by
  have h1 := Int.ediv_add_emod now dayMs
  have h2 := Int.emod_nonneg now (show dayMs ≠ 0 by rw [dayMs]; norm_num)
  have h3 := Int.emod_lt_of_pos now (show (0 : ℤ) < dayMs by rw [dayMs]; norm_num)
  rw [show now / dayMs = Int.ediv now dayMs from rfl] at h1
  rw [dayMs] at h1 h2 h3 ⊢
  constructor <;> omega

/-- C9 (amended): parseMeasurementTime returns null on non-string input
and exactly on the strings that do not match the time regex; on a matching
string whose hour and minute fields are actual wall-clock values (hour at
most 23, minute at most 59) it returns a timestamp within the 24 hours
preceding the call, interpreting a today-time lying in the future as
belonging to the previous day.  (For syntactically matching but
out-of-range fields such as hour 25 the result can lie in the future —
see the counterexample.) -/
theorem parseMeasurementTime_spec :
    (∀ now : ℤ, parseMeasurementTime now .null = none ∧
      parseMeasurementTime now .undefined = none) ∧
    (∀ (now : ℤ) (s : String),
      parseMeasurementTime now (.str s) = none ↔ matchTime s = none) ∧
    (∀ (now : ℤ) (s : String) (h m : ℕ), matchTime s = some (h, m) →
      h ≤ 23 → m ≤ 59 →
      ∃ t, parseMeasurementTime now (.str s) = some t ∧
        t ≤ now ∧ now - dayMs < t) := by
  refine ⟨fun now => ⟨rfl, rfl⟩, ?_, ?_⟩
  · intro now s
    by_cases he : s = ""
    · subst he
      constructor
      · intro _
        rfl
      · intro _
        rfl
    · rw [parseMeasurementTime, if_neg he]
      cases hm : matchTime s with
      | none => simp
      | some hmv =>
        obtain ⟨h, m⟩ := hmv
        simp
  · intro now s h m hm h23 m59
    have he : s ≠ "" := by
      intro he
      subst he
      cases hm
    have hbr := dayStart_bracket now
    refine ⟨if now < dayMs * Int.ediv now dayMs + ((h : ℤ) * 60 + (m : ℤ)) * 60000
        then dayMs * Int.ediv now dayMs + ((h : ℤ) * 60 + (m : ℤ)) * 60000 - dayMs
        else dayMs * Int.ediv now dayMs + ((h : ℤ) * 60 + (m : ℤ)) * 60000, ?_, ?_, ?_⟩
    · rw [parseMeasurementTime, if_neg he, hm]
    · have hoff1 : (0 : ℤ) ≤ ((h : ℤ) * 60 + (m : ℤ)) * 60000 := by positivity
      have hoff2 : ((h : ℤ) * 60 + (m : ℤ)) * 60000 < dayMs := by
        have hh : (h : ℤ) ≤ 23 := by exact_mod_cast h23
        have hmm : (m : ℤ) ≤ 59 := by exact_mod_cast m59
        rw [dayMs]
        nlinarith
      split
      · omega
      · omega
    · have hoff1 : (0 : ℤ) ≤ ((h : ℤ) * 60 + (m : ℤ)) * 60000 := by positivity
      have hoff2 : ((h : ℤ) * 60 + (m : ℤ)) * 60000 < dayMs := by
        have hh : (h : ℤ) ≤ 23 := by exact_mod_cast h23
        have hmm : (m : ℤ) ≤ 59 := by exact_mod_cast m59
        rw [dayMs]
        nlinarith
      split
      · omega
      · omega

/-- Witness for the amended C9: the string 12:30 at a call time 13600000
milliseconds into day 1 parses to a timestamp in the preceding 24 hours. -/
theorem parseMeasurementTime_spec_witness :
    matchTime "12:30" = some (12, 30) ∧ 12 ≤ 23 ∧ 30 ≤ 59 ∧
    ∃ t, parseMeasurementTime 100000000 (.str "12:30") = some t ∧
      t ≤ 100000000 ∧ 100000000 - dayMs < t := by
  refine ⟨by decide, by decide, by decide, ?_⟩
  exact parseMeasurementTime_spec.2.2 100000000 "12:30" 12 30 (by decide)
    (by decide) (by decide)

/-- Counterexample for C9 as stated: the string 25:00 matches the HH:MM
regex, and at call time 1800000 (00:30 on day 0) it parses to 3600000
(01:00 on day 0), a timestamp strictly later than the current clock time —
subtracting a single day from the rolled-over Date is not enough to push
it into the past. -/
theorem parseMeasurementTime_future :
    parseMeasurementTime 1800000 (.str "25:00") = some 3600000 ∧
    (1800000 : ℤ) < 3600000 := by
  constructor
  · decide
  · decide

/-- Key membership after a JS object assignment: the keys are the old keys
plus the inserted one. -/
theorem objInsert_mem_iff (l : List (String × Station)) (k : String)
    (v : Station) (n : String) :
    (∃ st, (n, st) ∈ objInsert l k v) ↔ (n = k ∨ ∃ st, (n, st) ∈ l) := by
  unfold objInsert
  by_cases hk : l.any (fun p => p.1 = k) = true
  · rw [if_pos hk]
    constructor
    · rintro ⟨st, hst⟩
      rw [List.mem_map] at hst
      obtain ⟨p, hp, hfp⟩ := hst
      by_cases hpk : p.1 = k
      · rw [if_pos hpk] at hfp
        left
        have := congrArg Prod.fst hfp
        simpa using this.symm
      · rw [if_neg hpk] at hfp
        right
        exact ⟨st, by rwa [hfp] at hp⟩
    · rintro (rfl | ⟨st, hst⟩)
      · rw [List.any_eq_true] at hk
        obtain ⟨p, hp, hpk⟩ := hk
        rw [decide_eq_true_iff] at hpk
        exact ⟨v, List.mem_map.mpr ⟨p, hp, by rw [if_pos hpk]⟩⟩
      · by_cases hnk : n = k
        · subst hnk
          exact ⟨v, List.mem_map.mpr ⟨(n, st), hst, by simp⟩⟩
        · refine ⟨st, List.mem_map.mpr ⟨(n, st), hst, ?_⟩⟩
          rw [if_neg hnk]
  · rw [if_neg hk]
    constructor
    · rintro ⟨st, hst⟩
      rw [List.mem_append] at hst
      rcases hst with h | h
      · right
        exact ⟨st, h⟩
      · left
        rw [List.mem_singleton] at h
        have := congrArg Prod.fst h
        simpa using this
    · rintro (rfl | ⟨st, hst⟩)
      · exact ⟨v, List.mem_append.mpr (Or.inr (List.mem_singleton.mpr rfl))⟩
      · exact ⟨st, List.mem_append.mpr (Or.inl hst)⟩

/-- Key membership of the extractAllStations fold: a key is present after
the fold exactly when it was present before or some row of the feed
contributes it. -/
theorem extractFold_mem (pf : String → JSNum) (now : ℤ) :
    ∀ (podaci : List (List JSVal)) (acc : List (String × Station)) (n : String),
      (∃ st, (n, st) ∈ podaci.foldl (fun acc entry =>
          match extractRow pf now entry with
          | some (k, st) => objInsert acc k st
          | none => acc) acc) ↔
      ((∃ st, (n, st) ∈ acc) ∨
        ∃ e ∈ podaci, ∃ st, extractRow pf now e = some (n, st)) := by
  intro podaci
  induction podaci with
  | nil =>
    intro acc n
    simp
  | cons e rest ih =>
    intro acc n
    rw [List.foldl_cons]
    cases hrow : extractRow pf now e with
    | none =>
      simp only [hrow]
      rw [ih acc n]
      constructor
      · rintro (h | h)
        · exact Or.inl h
        · right
          obtain ⟨f, hf, hst⟩ := h
          exact ⟨f, List.mem_cons_of_mem e hf, hst⟩
      · rintro (h | ⟨f, hf, st, hst⟩)
        · exact Or.inl h
        · rcases List.mem_cons.mp hf with rfl | hf'
          · rw [hrow] at hst
            cases hst
          · exact Or.inr ⟨f, hf', st, hst⟩
    | some kv =>
      obtain ⟨k, v⟩ := kv
      simp only [hrow]
      rw [ih (objInsert acc k v) n, objInsert_mem_iff]
      constructor
      · rintro ((rfl | h) | h)
        · right
          exact ⟨e, List.mem_cons_self e rest, v, hrow⟩
        · exact Or.inl h
        · right
          obtain ⟨f, hf, hst⟩ := h
          exact ⟨f, List.mem_cons_of_mem e hf, hst⟩
      · rintro (h | ⟨f, hf, st, hst⟩)
        · exact Or.inl (Or.inr h)
        · rcases List.mem_cons.mp hf with rfl | hf'
          · rw [hrow] at hst
            left
            left
            have := congrArg (fun o => Option.map Prod.fst o) hst
            simpa using this.symm
          · exact Or.inr ⟨f, hf', st, hst⟩

/-- C4 (amended): a station name appears in the mapping produced by
extractAllStations exactly when some feed row survives the filter chain
with that name (so every surviving row with a name, a parseable
temperature and finite coordinates appears); a row whose temperature field
is the literal dash, null/undefined, empty, or unparseable is excluded;
and the measurement time is parsed and stored but never filtered — the
acceptance of a row does not depend on its age, so rows older than 12
hours with a valid temperature are retained (see the counterexample). -/
theorem extractAllStations_spec :
    (∀ (pf : String → JSNum) (now : ℤ) (podaci : List (List JSVal)) (n : String),
      (∃ st, (n, st) ∈ extractAllStations pf now podaci) ↔
        ∃ e ∈ podaci, ∃ st, extractRow pf now e = some (n, st)) ∧
    (∀ (pf : String → JSNum) (now : ℤ) (e : List JSVal),
      (getIdx e 12 = .str "-" ∨ getIdx e 12 = .null ∨ getIdx e 12 = .undefined ∨
        getIdx e 12 = .str "") → extractRow pf now e = none) ∧
    (∀ (pf : String → JSNum) (now : ℤ) (e : List JSVal),
      pfVal pf (getIdx e 12) = .nan → extractRow pf now e = none) ∧
    (∀ (pf : String → JSNum) (now : ℤ) (e : List JSVal) (n : String) (st : Station),
      extractRow pf now e = some (n, st) →
        st.measurementTime = parseMeasurementTime now (getIdx e 10)) := by
  refine ⟨?_, ?_, ?_, ?_⟩
  · intro pf now podaci n
    rw [extractAllStations, extractFold_mem]
    simp
  · intro pf now e hdash
    unfold extractRow
    cases hname : getIdx e 1 with
    | str nm =>
      by_cases hnm : nm = ""
      · simp [hnm]
      · have hcond : getIdx e 12 = JSVal.null ∨ getIdx e 12 = JSVal.undefined ∨
            getIdx e 12 = JSVal.str "-" ∨ getIdx e 12 = JSVal.str "" := by
          tauto
        simp [hnm, hcond]
    | null => rfl
    | undefined => rfl
  · intro pf now e hnan
    unfold extractRow
    cases hname : getIdx e 1 with
    | str nm =>
      by_cases hnm : nm = ""
      · simp [hnm]
      · by_cases hcond : getIdx e 12 = JSVal.null ∨ getIdx e 12 = JSVal.undefined ∨
            getIdx e 12 = JSVal.str "-" ∨ getIdx e 12 = JSVal.str ""
        · simp [hnm, hcond]
        · simp [hnm, hcond, hnan, jsIsNaN]
    | null => rfl
    | undefined => rfl
  · intro pf now e n st h
    unfold extractRow at h
    cases hname : getIdx e 1 with
    | str nm =>
      rw [hname] at h
      simp only at h
      split at h
      · cases h
      · split at h
        · cases h
        · split at h
          · cases h
          · split at h
            · cases h
            · rw [Option.some.injEq] at h
              have := congrArg (fun p => (Prod.snd p).measurementTime) h
              simpa using this.symm
    | null =>
      rw [hname] at h
      cases h
    | undefined =>
      rw [hname] at h
      cases h

/-- Concrete instance of the abstract parseFloat parameter for the stale
feed-row counterexample: only the three numeric strings of the row parse. -/
def pfTest : String → JSNum := fun s =>
  if s = "5.0" then .fin 5
  else if s = "45.0" then .fin 45
  else if s = "16.0" then .fin 16
  else .nan

/-- Feed row with a valid name, temperature and coordinates whose
measurement time 01:00 is thirteen hours old at the call time. -/
def staleEntry : List JSVal :=
  [.str "lokalna", .str "Stari", .str "45.0", .str "16.0", .null, .null,
   .null, .null, .null, .null, .str "01:00", .null, .str "5.0"]

/-- The station the stale row produces. -/
noncomputable def staleStation : Station :=
  { name := "Stari", lat := .fin 45, lon := .fin 16, temperature := .fin 5,
    humidity := none, pressure := none, pressureTrend := none,
    windDirection := .null, windSpeed := none, condition := none,
    measurementTime := some 90000000 }

/-- Counterexample for C4 as stated: at the call time 136800000 ms (14:00
on day 1) the row measured at 01:00 the same day is thirteen hours old —
older than the claimed 12-hour ceiling — yet extractAllStations keeps it:
no staleness filter exists in the array-literal variant. -/
theorem extractAllStations_keeps_stale :
    extractAllStations pfTest 136800000 [staleEntry] = [("Stari", staleStation)] ∧
    ∃ t, staleStation.measurementTime = some t ∧ 12 * 3600000 < 136800000 - t := by
  constructor
  · rfl
  · exact ⟨90000000, rfl, by decide⟩

/-- Sample station A for the resolver theorems. -/
noncomputable def stationA : Station :=
  { name := "A", lat := .fin 45, lon := .fin 16, temperature := .fin 5,
    humidity := none, pressure := none, pressureTrend := none,
    windDirection := .null, windSpeed := none, condition := none,
    measurementTime := none }

/-- Sample station B for the resolver theorems. -/
noncomputable def stationB : Station :=
  { name := "B", lat := .fin 46, lon := .fin 15, temperature := .fin 7,
    humidity := none, pressure := none, pressureTrend := none,
    windDirection := .null, windSpeed := none, condition := none,
    measurementTime := none }

/-- C5 (amended): when the persisted selection names a station absent from
a non-empty snapshot (and is not the sentinel), renderSelectedStation
demotes the selection to the sentinel and persists that demotion, then
re-resolves: if the sentinel resolution yields a concrete station it is
displayed exactly as a direct sentinel resolution would display it, but
when the sentinel resolution fails (no cached coordinates) the call
renders nothing at all — unlike a direct sentinel resolution, which
renders the pending status or a geolocation error. -/
theorem renderSelectedStation_fallback (geo : GeoState)
    (stations : List (String × Station)) (c : String)
    (hne : stations.length ≠ 0) (hcd : c ≠ DETECTED_LOCATION) (hce : c ≠ "")
    (hlk : List.lookup c stations = none) :
    renderSelectedStation geo (some stations) (some c) =
      (match getStationForLocation geo stations DETECTED_LOCATION with
       | some (st, d) => RenderOutcome.display st d
       | none => RenderOutcome.silent, some DETECTED_LOCATION) ∧
    (∀ st d, getStationForLocation geo stations DETECTED_LOCATION = some (st, d) →
      (renderSelectedStation geo (some stations) (some DETECTED_LOCATION)).1 =
        RenderOutcome.display st d) := by
  have hsel : getSelectedLocation (some c) = c := by
    simp [getSelectedLocation, hce]
  have hg1 : getStationForLocation geo stations c = none := by
    simp only [getStationForLocation]
    rw [if_neg hcd, hlk]
  constructor
  · simp only [renderSelectedStation]
    rw [if_neg hne]
    simp only [hsel, hg1]
    rw [if_neg hcd]
    cases hres : getStationForLocation geo stations DETECTED_LOCATION with
    | some p =>
      obtain ⟨st, d⟩ := p
      simp [hres]
    | none =>
      simp [hres]
  · intro st d hres
    have hselD : getSelectedLocation (some DETECTED_LOCATION) = DETECTED_LOCATION := by
      simp [getSelectedLocation, DETECTED_LOCATION]
    simp only [renderSelectedStation]
    rw [if_neg hne]
    simp only [hselD, hres]

/-- Witness for the amended C5: snapshot with station A only, persisted
selection C absent, geolocation denied without coordinates. -/
theorem renderSelectedStation_fallback_witness :
    ([("A", stationA)] : List (String × Station)).length ≠ 0 ∧
    "C" ≠ DETECTED_LOCATION ∧ "C" ≠ "" ∧
    List.lookup "C" [("A", stationA)] = none ∧
    (renderSelectedStation ⟨.denied, none⟩ (some [("A", stationA)]) (some "C") =
      (match getStationForLocation ⟨.denied, none⟩ [("A", stationA)]
          DETECTED_LOCATION with
       | some (st, d) => RenderOutcome.display st d
       | none => RenderOutcome.silent, some DETECTED_LOCATION) ∧
    (∀ st d, getStationForLocation ⟨.denied, none⟩ [("A", stationA)]
        DETECTED_LOCATION = some (st, d) →
      (renderSelectedStation ⟨.denied, none⟩ (some [("A", stationA)])
        (some DETECTED_LOCATION)).1 = RenderOutcome.display st d)) := by
  refine ⟨by decide, by decide, by decide, rfl, ?_⟩
  exact renderSelectedStation_fallback ⟨.denied, none⟩ [("A", stationA)] "C"
    (by decide) (by decide) (by decide) rfl

/-- Counterexample for C5 as stated: with snapshot containing A and B,
persisted selection C (absent) and geolocation denied without cached
coordinates, the fallback path renders nothing (silent return), whereas a
direct sentinel resolution under the same geolocation state renders the
denied error — the re-resolution is not rendered exactly as a direct
sentinel resolution would be. -/
theorem renderSelectedStation_fallback_differs :
    (renderSelectedStation ⟨.denied, none⟩
      (some [("A", stationA), ("B", stationB)]) (some "C")).1 =
      RenderOutcome.silent ∧
    (renderSelectedStation ⟨.denied, none⟩
      (some [("A", stationA), ("B", stationB)]) (some DETECTED_LOCATION)).1 =
      RenderOutcome.errDenied ∧
    RenderOutcome.silent ≠ RenderOutcome.errDenied := by
  refine ⟨rfl, rfl, fun h => RenderOutcome.noConfusion h⟩

/-- C7 (amended): a position request is started exactly by a successful
data fetch and by selecting the sentinel without cached coordinates (via
retry), always one request per trigger — with no in-flight guard, so
several requests can be outstanding at once when triggers overlap. -/
theorem geoStep_request_discipline :
    ∀ (hasGeo : Bool) (s : GeoAppState) (e : GeoEvent),
      ((geoStep hasGeo s e).pending > s.pending ↔
        (hasGeo = true ∧ (e = .fetchSuccess ∨
          (e = .select DETECTED_LOCATION ∧ s.coords = none)))) ∧
      (geoStep hasGeo s e).pending ≤ s.pending + 1 := by
  intro hasGeo s e
  cases e with
  | fetchSuccess =>
    cases hasGeo with
    | true => simp [geoStep, geoRequest]
    | false => simp [geoStep, geoRequest]
  | select v =>
    by_cases hv : v = DETECTED_LOCATION
    · subst hv
      cases hc : s.coords with
      | none =>
        cases hasGeo with
        | true => simp [geoStep, geoRequest, geoRetry, hc, Option.isNone]
        | false => simp [geoStep, geoRequest, geoRetry, hc, Option.isNone]
      | some c =>
        simp [geoStep, geoRequest, geoRetry, hc, Option.isNone]
    · simp [geoStep, hv]
  | geoSuccess lat lon =>
    by_cases hp : s.pending = 0
    · simp [geoStep, hp]
    · constructor
      · simp only [geoStep, if_neg hp]
        constructor
        · intro h
          rw [apply_ite GeoAppState.pending] at h
          simp at h
          omega
        · rintro ⟨_, h | ⟨h, _⟩⟩ <;> cases h
      · simp only [geoStep, if_neg hp]
        rw [apply_ite GeoAppState.pending]
        simp
        omega
  | geoFail code =>
    by_cases hp : s.pending = 0
    · simp [geoStep, hp]
    · constructor
      · simp only [geoStep, if_neg hp]
        constructor
        · intro h
          simp at h
          omega
        · rintro ⟨_, h | ⟨h, _⟩⟩ <;> cases h
      · simp only [geoStep, if_neg hp]
        simp
        omega

/-- Counterexample for C7 as stated: two successful fetches in a row, or a
fetch followed by selecting the sentinel, each start a second position
request while the first is still outstanding and the status is still
unknown (no terminal state was reached before the second request). -/
theorem geolocation_overlapping_requests :
    (geoRun true geoInit [.fetchSuccess, .fetchSuccess]).pending = 2 ∧
    (geoRun true geoInit [.fetchSuccess, .select DETECTED_LOCATION]).pending = 2 ∧
    (geoRun true geoInit [.fetchSuccess]).status = GeoStatus.unknown ∧
    (geoRun true geoInit [.fetchSuccess]).pending = 1 := by
  refine ⟨rfl, rfl, rfl, rfl⟩

/-- C8: the spec-modelled condition synthesis cascade maps temperature 38,
humidity 80, wind speed 1, dewpoint 30 to the oppressive-heat phrase of
the 36-degree band via the oppressive-humidity rule (the fog rule does not
apply because 38 degrees exceeds its 15-degree ceiling). -/
theorem generateCondition_oppressive :
    generateCondition 38 80 1 30 = "oppressive heat" := by
  decide
